import Mathlib

/-!
Verification of the Hertz contact example script (src/examples/hertz.py).

The script configures a two-body elastic contact problem for a finite element
library: it sets material parameters, splits an imported mesh in two at the
line y = 0, classifies boundary faces into named regions, declares finite
element fields, assembles linear elasticity, Dirichlet and augmented-Lagrangian
contact terms, and calls a Newton solve.

The development below gives a shallow embedding of the script configuration:
rational arithmetic stands for the script's real arithmetic; the GWFL (generic
weak form language) expressions of the two contact terms are translated into
Lean functions of the per-quadrature-point values; the mesh splitting is
modelled on an explicit point/convex list representation mirroring
`cvid_from_pid` / `del_convex`; and the library behaviours that the script
relies on but whose code is not part of the repository (the boundary face
classifier, the filtered variable DOF restriction and the Newton loop) are
modelled from the specification text.
-/

namespace Hertz

/-! ### Script parameters (hertz.py lines 26-38) -/

/-- Youngs modulus `E = 200000.0` (line 26). -/
def E : ℚ := 200000

/-- Poisson ratio `nu = 0.3` (line 27). -/
def nu : ℚ := 3 / 10

/-- First Lame coefficient `clambda = E*nu/((1+nu)*(1-2*nu))` (line 28). -/
def clambda : ℚ := E * nu / ((1 + nu) * (1 - 2 * nu))

/-- Second Lame coefficient `cmu = E/(2*(1+nu))` (line 29). -/
def cmu : ℚ := E / (2 * (1 + nu))

/-- Plane-stress corrected coefficient
`clambdastar = 2*clambda*cmu/(clambda+2*cmu)` (lines 30-32). -/
def clambdastar : ℚ := 2 * clambda * cmu / (clambda + 2 * cmu)

/-- Degree of the finite element methods (line 34). -/
def elements_degree : Nat := 2

/-- Force at the top boundary, `applied_force = 200.0 * 100` (line 36). -/
def applied_force : ℚ := 200 * 100

/-- Augmentation parameter `gamma0 = 1.0 / E` (line 38). -/
def gamma0 : ℚ := 1 / E

/-! ### The interpolate transformation "Proj1" (hertz.py line 231)

The transformation is added from the GWFL expression string `"[X(1);-X(2)]"`.
We embed the expression language fragment needed for it: coordinate access
`X(i)`, references to model variables (which a general expression may contain,
and on which the tangent system would then depend), and negation. -/

/-- Fragment of the GWFL expression language sufficient for the transformation
expression of line 231. -/
inductive GwflExpr where
  | coord (i : Nat)
  | modelVar (name : String)
  | negE (e : GwflExpr)
deriving DecidableEq

/-- Evaluation of a `GwflExpr` at a point `X`, in a model state assigning a
value to every model variable name. -/
def evalGwfl (X : ℚ × ℚ) (vars : String → ℚ) : GwflExpr → ℚ
  | .coord i => if i = 1 then X.1 else if i = 2 then X.2 else 0
  | .modelVar s => vars s
  | .negE e => - evalGwfl X vars e

/-- The expression `"[X(1);-X(2)]"` of line 231, as a pair of components. -/
def Proj1Expr : GwflExpr × GwflExpr := (.coord 1, .negE (.coord 2))

/-- Evaluation of a two-component transformation expression. -/
def evalTransform (t : GwflExpr × GwflExpr) (X : ℚ × ℚ) (vars : String → ℚ) :
    ℚ × ℚ :=
  (evalGwfl X vars t.1, evalGwfl X vars t.2)

/-- The correspondence transform as a plain function: the value of
`Proj1Expr`. -/
def Proj1 (X : ℚ × ℚ) : ℚ × ℚ := (X.1, -X.2)

/-! ### The two contact terms (hertz.py lines 256-257)

Line 256:
`lambda1*(Test_u1.[0;1])-lambda1*(Interpolate(Test_u2,Proj1).[0;1])`

Line 257:
`-(gamma0*element_size)*(lambda1 + neg_part(lambda1+(1/(gamma0*element_size))*((u1-Interpolate(u2,Proj1)+X-Interpolate(X,Proj1)).[0;1])))*Test_lambda1`

Both are integrands over the slave contact boundary; we embed their values at
one quadrature point `X`.  `Interpolate(e,Proj1)` evaluates `e` at `Proj1 X`,
and `v.[0;1]` is the contraction of the vector `v` with `[0;1]`. -/

/-- GWFL `neg_part`: the negative part `max (-x) 0`. -/
def neg_part (x : ℚ) : ℚ := max (-x) 0

/-- Dot product on ℚ². -/
def dotQ (a b : ℚ × ℚ) : ℚ := a.1 * b.1 + a.2 * b.2

/-- Embedding of the line 256 integrand at a quadrature point `X`:
`lam` is the value of `lambda1`, `testU1` the value of the test function of
`u1` at `X`, and `testU2` the test function of `u2` (evaluated at `Proj1 X`
by the `Interpolate` node). -/
def contactCouplingTerm (lam : ℚ) (testU1 : ℚ × ℚ) (testU2 : ℚ × ℚ → ℚ × ℚ)
    (X : ℚ × ℚ) : ℚ :=
  lam * dotQ testU1 (0, 1) - lam * dotQ (testU2 (Proj1 X)) (0, 1)

/-- Embedding of the line 257 integrand at a quadrature point `X`:
`gam` is the value of the data `gamma0`, `hT` the value of `element_size`,
`lam` the value of `lambda1`, `u1X` the value of `u1` at `X`, `u2` the
displacement field of the foundation (evaluated at `Proj1 X` by the
`Interpolate` node), and `testLam` the value of the test function of
`lambda1`. -/
def contactPressureTerm (gam hT lam : ℚ) (u1X : ℚ × ℚ)
    (u2 : ℚ × ℚ → ℚ × ℚ) (X : ℚ × ℚ) (testLam : ℚ) : ℚ :=
  -(gam * hT) *
    (lam + neg_part (lam + (1 / (gam * hT)) *
      (dotQ (u1X - u2 (Proj1 X) + X - Proj1 X) (0, 1)))) * testLam

/-! ### The specification-side formulas for the contact terms

These definitions follow the wording of the specification (section 4.3) and
are compared against the embeddings of the source expressions above. -/

/-- Specification formula: the gap
`g(X) = ((X + u1(X)) - (Pi(X) + u2(Pi(X)))) . n`. -/
def gapSpec (u1X : ℚ × ℚ) (u2 : ℚ × ℚ → ℚ × ℚ) (X n : ℚ × ℚ) : ℚ :=
  dotQ ((X + u1X) - (Proj1 X + u2 (Proj1 X))) n

/-- Specification formula: the augmented multiplier
`lambda_aug(X) = lambda(X) + (1/(gamma0*h_T)) * g(X)` with `n = (0,1)`. -/
def lambdaAugSpec (gam hT lam : ℚ) (u1X : ℚ × ℚ) (u2 : ℚ × ℚ → ℚ × ℚ)
    (X : ℚ × ℚ) : ℚ :=
  lam + (1 / (gam * hT)) * gapSpec u1X u2 X (0, 1)

/-- Specification formula: the multiplier residual term
`-(gamma0*h_T)*(lambda(X) + neg_part(lambda_aug(X)))*deltaLambda(X)`. -/
def pressureTermSpec (gam hT lam : ℚ) (u1X : ℚ × ℚ) (u2 : ℚ × ℚ → ℚ × ℚ)
    (X : ℚ × ℚ) (testLam : ℚ) : ℚ :=
  -(gam * hT) * (lam + neg_part (lambdaAugSpec gam hT lam u1X u2 X)) * testLam

/-- Specification formula: the slave displacement residual contribution
`+lambda(X)*(deltaU1 . n)`. -/
def slaveDispSpec (lam : ℚ) (testU1 n : ℚ × ℚ) : ℚ := lam * dotQ testU1 n

/-- Specification formula: the master displacement residual contribution
`-lambda(X)*(deltaU2(Pi(X)) . n)`. -/
def masterDispSpec (lam : ℚ) (testU2 : ℚ × ℚ → ℚ × ℚ) (X n : ℚ × ℚ) : ℚ :=
  -(lam * dotQ (testU2 (Proj1 X)) n)

/-! ### Claim theorems C1, C2, C3 -/

/-- Claim C1: the multiplier residual term assembled on the slave contact
boundary (the line 257 integrand) equals
`-(gamma0*h_T)*(lambda(X) + neg_part(lambda_aug(X)))*deltaLambda(X)` with
`lambda_aug(X) = lambda(X) + (1/(gamma0*h_T))*g(X)` and
`g(X) = ((X + u1(X)) - (Pi(X) + u2(Pi(X)))) . n`, `n = (0,1)`, at every
quadrature point and for all field values. -/
theorem contact_pressure_term_matches_spec
    (gam hT lam : ℚ) (u1X : ℚ × ℚ) (u2 : ℚ × ℚ → ℚ × ℚ) (X : ℚ × ℚ)
    (testLam : ℚ) :
    contactPressureTerm gam hT lam u1X u2 X testLam =
      pressureTermSpec gam hT lam u1X u2 X testLam := by
  unfold contactPressureTerm pressureTermSpec lambdaAugSpec gapSpec
  have h : dotQ (u1X - u2 (Proj1 X) + X - Proj1 X) (0, 1) =
      dotQ ((X + u1X) - (Proj1 X + u2 (Proj1 X))) (0, 1) := by
    simp only [dotQ, Prod.fst_sub, Prod.snd_sub, Prod.fst_add, Prod.snd_add]
    ring
  rw [h]

/-- Claim C2: the contact residual contribution to the displacement test
functions (the line 256 integrand) is `+lambda(X)*(deltaU1 . n)` for the
slave displacement plus `-lambda(X)*(deltaU2(Pi(X)) . n)` for the master
displacement, with `n = (0,1)`, at every point of the slave contact region. -/
theorem contact_coupling_term_matches_spec
    (lam : ℚ) (testU1 : ℚ × ℚ) (testU2 : ℚ × ℚ → ℚ × ℚ) (X : ℚ × ℚ) :
    contactCouplingTerm lam testU1 testU2 X =
      slaveDispSpec lam testU1 (0, 1) + masterDispSpec lam testU2 X (0, 1) := by
  unfold contactCouplingTerm slaveDispSpec masterDispSpec
  ring

/-- Claim C3: the correspondence transform "Proj1" is the fixed reflection
`(x,y) -> (x,-y)`: its expression evaluates to `(X(1), -X(2))` at every point
`X`, and its value does not depend on the model state, hence it does not
change between Newton iterations. -/
theorem proj1_is_fixed_reflection (X : ℚ × ℚ) (vars varsNext : String → ℚ) :
    evalTransform Proj1Expr X vars = (X.1, -X.2) ∧
      evalTransform Proj1Expr X vars = evalTransform Proj1Expr X varsNext ∧
      Proj1 X = (X.1, -X.2) := by
  refine ⟨rfl, rfl, rfl⟩

/-! ### Boundary region classifier (hertz.py lines 100-124)

The classifier `outer_faces_with_direction` is a library routine whose code is
not part of this repository; the specification describes its contract. -/

/-- Dot product on ℝ². -/
def dotR (a b : ℝ × ℝ) : ℝ := a.1 * b.1 + a.2 * b.2

/-- Modelled from the spec: `outer_faces_with_direction` — the angle between a
face's outward unit normal `n` and the target direction `dir`. -/
noncomputable def angleToDir (n dir : ℝ × ℝ) : ℝ := Real.arccos (dotR n dir)

/-- Modelled from the spec: `outer_faces_with_direction` selects a face
whose outward unit normal is `n` when the angle between `n` and the target
direction `dir` is at most the tolerance (closed interval). -/
def faceSelected (n dir : ℝ × ℝ) (tol : ℝ) : Prop := angleToDir n dir ≤ tol

/-- Contact region of the wheel mesh: `outer_faces_with_direction
([0,-1], pi/2)` on `mesh1` (line 100). -/
def contactRegion1 (n : ℝ × ℝ) : Prop := faceSelected n (0, -1) (Real.pi / 2)

/-- Top region of the wheel mesh: `outer_faces_with_direction ([0,1], pi/2)`
on `mesh1` (line 106). -/
def topRegion1 (n : ℝ × ℝ) : Prop := faceSelected n (0, 1) (Real.pi / 2)

/-- Left region of the wheel mesh: `outer_faces_with_direction ([-1,0], 0.01)`
on `mesh1` (line 110). -/
def leftRegion1 (n : ℝ × ℝ) : Prop := faceSelected n (-1, 0) (1 / 100)

/-! ### Claim theorems C5, C6 -/

/-- Claim C5: the classifier includes a face exactly when the angle between
its outward unit normal and the target direction is ≤ the tolerance; in
particular a face at angle exactly π/2 is included at tolerance π/2 and
excluded at any tolerance < π/2. -/
theorem classifier_closed_interval (n dir : ℝ × ℝ) (tol : ℝ) :
    (faceSelected n dir tol ↔ angleToDir n dir ≤ tol) ∧
      (angleToDir n dir = Real.pi / 2 →
        faceSelected n dir (Real.pi / 2) ∧
          (tol < Real.pi / 2 → ¬ faceSelected n dir tol)) := by
  refine ⟨Iff.rfl, fun h => ⟨le_of_eq h, fun htol hsel => ?_⟩⟩
  rw [faceSelected, h] at hsel
  exact absurd (lt_of_le_of_lt hsel htol) (lt_irrefl _)

/-- Witness for C5 at the concrete normal `(1,0)` and direction `(0,-1)`:
the angle is exactly π/2, the face is selected at tolerance π/2 and not
selected at tolerance 1 < π/2. -/
theorem classifier_closed_interval_witness :
    angleToDir (1, 0) (0, -1) = Real.pi / 2 ∧
      faceSelected (1, 0) (0, -1) (Real.pi / 2) ∧
      ¬ faceSelected (1, 0) (0, -1) 1 := by
  have hangle : angleToDir ((1 : ℝ), (0 : ℝ)) (0, -1) = Real.pi / 2 := by
    rw [angleToDir, dotR]
    norm_num [Real.arccos_zero]
  have h1 : (1 : ℝ) < Real.pi / 2 := by
    have := Real.pi_gt_three
    linarith
  obtain ⟨hsel, hexc⟩ := (classifier_closed_interval (1, 0) (0, -1) 1).2 hangle
  exact ⟨hangle, hsel, hexc h1⟩

/-- Counterexample for C6: a face whose outward unit normal is exactly
`(-1, 0)` belongs simultaneously to the contact region (angle to `(0,-1)` is
exactly π/2 ≤ π/2), the top region (angle to `(0,1)` is exactly π/2 ≤ π/2)
and the left region (angle to `(-1,0)` is 0 ≤ 0.01), so the three regions
assigned to the wheel mesh are not pairwise disjoint. -/
theorem regions_not_disjoint_counterexample :
    contactRegion1 (-1, 0) ∧ topRegion1 (-1, 0) ∧ leftRegion1 (-1, 0) := by
  refine ⟨?_, ?_, ?_⟩
  · show angleToDir _ _ ≤ _
    rw [angleToDir, dotR]
    norm_num [Real.arccos_zero]
  · show angleToDir _ _ ≤ _
    rw [angleToDir, dotR]
    norm_num [Real.arccos_zero]
  · show angleToDir _ _ ≤ _
    rw [angleToDir, dotR]
    norm_num [Real.arccos_one]

/-- Claim C6 (amended): disjointness of the wheel regions holds only away
from the tolerance boundary: a normal at angle strictly less than π/2 to
`(0,-1)` is in the contact region and not in the top region, a normal at
angle strictly less than π/2 to `(0,1)` is in the top region and not in the
contact region, but every normal lies in the contact region or the top region
(their closed tolerance cones cover the circle and overlap at the horizontal
normals), so in particular the left region is disjoint from both only if it
is empty. -/
theorem regions_disjoint_amended (n : ℝ × ℝ) :
    (angleToDir n (0, -1) < Real.pi / 2 →
      contactRegion1 n ∧ ¬ topRegion1 n) ∧
    (angleToDir n (0, 1) < Real.pi / 2 →
      topRegion1 n ∧ ¬ contactRegion1 n) ∧
    (contactRegion1 n ∨ topRegion1 n) := by
  have hdown : dotR n (0, -1) = -(n.2) := by simp [dotR]
  have hup : dotR n (0, 1) = n.2 := by simp [dotR]
  have hPi : angleToDir n (0, -1) = Real.pi - angleToDir n (0, 1) := by
    rw [angleToDir, angleToDir, hdown, hup, Real.arccos_neg]
  constructor
  · intro h
    refine ⟨le_of_lt h, fun htop => ?_⟩
    rw [hPi] at h
    have : Real.pi / 2 < angleToDir n (0, 1) := by linarith
    exact absurd (lt_of_le_of_lt htop this) (lt_irrefl _)
  constructor
  · intro h
    refine ⟨le_of_lt h, fun hcon => ?_⟩
    have hcon2 : angleToDir n (0, -1) ≤ Real.pi / 2 := hcon
    rw [hPi] at hcon2
    linarith
  · rcases le_or_lt (angleToDir n (0, 1)) (Real.pi / 2) with h | h
    · exact Or.inr h
    · refine Or.inl ?_
      show angleToDir n (0, -1) ≤ Real.pi / 2
      rw [hPi]
      linarith

/-- Witness for the amended C6 at the concrete normal `(0,-1)`: its angle to
`(0,-1)` is 0 < π/2, so it is in the contact region and not in the top
region. -/
theorem regions_disjoint_amended_witness :
    angleToDir (0, -1) (0, -1) < Real.pi / 2 ∧
      (contactRegion1 (0, -1) ∧ ¬ topRegion1 (0, -1)) := by
  have h : angleToDir ((0 : ℝ), (-1 : ℝ)) (0, -1) < Real.pi / 2 := by
    rw [angleToDir, dotR]
    norm_num [Real.arccos_one, Real.pi_pos]
  exact ⟨h, (regions_disjoint_amended (0, -1)).1 h⟩

/-! ### The model configuration (hertz.py lines 113-258 and 288-291)

The script builds a `Model` object by a fixed sequence of library calls.  We
embed the configuration those calls describe as a record: the declared
variables, the initialized data, the elasticity and Dirichlet bricks, the
interpolate transformation, the two contact terms, and the Von Mises
post-processing calls.  The configuration is parameterized by the script
parameters so that dependence (and non-dependence) on each parameter is
visible. -/

/-- Region identifiers (lines 113-117). -/
def HOLE_BOUND : Nat := 1

/-- Region identifier of the contact boundaries (line 114). -/
def CONTACT_BOUND : Nat := 2

/-- Region identifier of the bottom boundary (line 115). -/
def BOTTOM_BOUND : Nat := 3

/-- Region identifier of the top boundary (line 116). -/
def TOP_BOUND : Nat := 4

/-- Region identifier of the left boundaries (line 117). -/
def LEFT_BOUND : Nat := 5

/-- The adjustable parameters of the script (lines 26-38). -/
structure ScriptParams where
  E : ℚ
  nu : ℚ
  elements_degree : Nat
  applied_force : ℚ
deriving DecidableEq

/-- `clambda` as a function of the parameters (line 28). -/
def clambdaOf (p : ScriptParams) : ℚ :=
  p.E * p.nu / ((1 + p.nu) * (1 - 2 * p.nu))

/-- `cmu` as a function of the parameters (line 29). -/
def cmuOf (p : ScriptParams) : ℚ := p.E / (2 * (1 + p.nu))

/-- `clambdastar` as a function of the parameters (lines 30-32). -/
def clambdastarOf (p : ScriptParams) : ℚ :=
  2 * clambdaOf p * cmuOf p / (clambdaOf p + 2 * cmuOf p)

/-- `gamma0` as a function of the parameters (line 38). -/
def gamma0Of (p : ScriptParams) : ℚ := 1 / p.E

/-- The parameter values the script actually sets. -/
def scriptParams : ScriptParams :=
  { E := E, nu := nu, elements_degree := elements_degree,
    applied_force := applied_force }

/-- A finite element method declaration: which mesh it lives on, the target
dimension of its fields, the polynomial degree of its basis, and whether the
classical FEM is the discontinuous variant (lines 137-152). -/
structure MeshFemDesc where
  meshId : Nat
  qdim : Nat
  degree : Nat
  discontinuous : Bool
deriving DecidableEq

/-- `mfu1 = gf.MeshFem(mesh1, 2)` with classical FEM of degree
`elements_degree` (lines 137-138). -/
def mfu1 (p : ScriptParams) : MeshFemDesc := ⟨1, 2, p.elements_degree, false⟩

/-- `mfd1` (lines 139-140). -/
def mfd1 (p : ScriptParams) : MeshFemDesc := ⟨1, 1, p.elements_degree, false⟩

/-- `mflambda` (lines 141-142). -/
def mflambda (p : ScriptParams) : MeshFemDesc :=
  ⟨1, 2, p.elements_degree - 1, false⟩

/-- `mflambda_C = gf.MeshFem(mesh1, 1)` with classical FEM of degree
`elements_degree - 1` (lines 143-144). -/
def mflambda_C (p : ScriptParams) : MeshFemDesc :=
  ⟨1, 1, p.elements_degree - 1, false⟩

/-- `mfu2` (lines 145-146). -/
def mfu2 (p : ScriptParams) : MeshFemDesc := ⟨2, 2, p.elements_degree, false⟩

/-- `mfd2` (lines 147-148). -/
def mfd2 (p : ScriptParams) : MeshFemDesc := ⟨2, 1, p.elements_degree, false⟩

/-- `mfvm1` with classical discontinuous FEM (lines 149-150). -/
def mfvm1 (p : ScriptParams) : MeshFemDesc := ⟨1, 1, p.elements_degree, true⟩

/-- `mfvm2` (lines 151-152). -/
def mfvm2 (p : ScriptParams) : MeshFemDesc := ⟨2, 1, p.elements_degree, true⟩

/-- A model variable declaration: either an unrestricted FEM variable
(`add_fem_variable`) or a filtered FEM variable restricted to a region
(`add_filtered_fem_variable`). -/
inductive VarDecl where
  | femVariable (name : String) (mf : MeshFemDesc)
  | filteredFemVariable (name : String) (mf : MeshFemDesc) (region : Nat)
deriving DecidableEq

/-- An `add_initialized_data` call: a name and the attached values. -/
structure DataDecl where
  name : String
  value : List ℚ
deriving DecidableEq

/-- An `add_isotropic_linearized_elasticity_brick` call: the mesh of its
integration method, the displacement variable, and the names of the data used
as first and second Lame coefficients. -/
structure ElasticityBrick where
  mimMesh : Nat
  varName : String
  lambdaCoeff : String
  muCoeff : String
deriving DecidableEq

/-- An `add_generalized_Dirichlet_condition_with_multipliers` call. -/
structure DirichletBrick where
  mimMesh : Nat
  varName : String
  multMf : MeshFemDesc
  region : Nat
  dataR : String
  dataH : String
deriving DecidableEq

/-- The model configuration assembled by the script: variables, data, bricks,
the interpolate transformation, the two contact integrands (with the model
data already substituted), and the Von Mises post-processing calls. -/
structure ModelDesc where
  varDecls : List VarDecl
  data : List DataDecl
  elasticityBricks : List ElasticityBrick
  dirichletBricks : List DirichletBrick
  transformName : String
  transformFrom : Nat
  transformTo : Nat
  transformExpr : GwflExpr × GwflExpr
  contactTermsMesh : Nat
  contactTermsRegion : Nat
  couplingIntegrand : ℚ → (ℚ × ℚ) → ((ℚ × ℚ) → ℚ × ℚ) → (ℚ × ℚ) → ℚ
  pressureIntegrand :
    ℚ → ℚ → (ℚ × ℚ) → ((ℚ × ℚ) → ℚ × ℚ) → (ℚ × ℚ) → ℚ → ℚ
  vonMisesCalls : List (String × String × String × MeshFemDesc)

/-- The model configuration the script builds, as a function of the
parameters (lines 166-257 and 290-291).  The `pressureIntegrand` is the line
257 integrand with the data `gamma0` already bound to its value `1/E`. -/
def buildModel (p : ScriptParams) : ModelDesc where
  varDecls :=
    [ .femVariable "u1" (mfu1 p),
      .femVariable "u2" (mfu2 p),
      .filteredFemVariable "lambda1" (mflambda_C p) CONTACT_BOUND ]
  data :=
    [ ⟨"cmu", [cmuOf p]⟩,
      ⟨"clambdastar", [clambdastarOf p]⟩,
      ⟨"r0", [0, -1/10]⟩, ⟨"r1", [0, 0]⟩, ⟨"r2", [0, 0]⟩, ⟨"r3", [0, 0]⟩,
      ⟨"H0", [0, 0, 0, 1]⟩, ⟨"H1", [1, 0, 0, 0]⟩,
      ⟨"H2", [1, 0, 0, 0]⟩, ⟨"H3", [0, 0, 0, 1]⟩,
      ⟨"gamma0", [gamma0Of p]⟩ ]
  elasticityBricks :=
    [ ⟨1, "u1", "clambdastar", "cmu"⟩,
      ⟨2, "u2", "clambdastar", "cmu"⟩ ]
  dirichletBricks :=
    [ ⟨1, "u1", mfu1 p, TOP_BOUND, "r0", "H0"⟩,
      ⟨1, "u1", mfu1 p, LEFT_BOUND, "r1", "H1"⟩,
      ⟨2, "u2", mfu2 p, LEFT_BOUND, "r2", "H2"⟩,
      ⟨2, "u2", mfu2 p, BOTTOM_BOUND, "r3", "H3"⟩ ]
  transformName := "Proj1"
  transformFrom := 1
  transformTo := 2
  transformExpr := Proj1Expr
  contactTermsMesh := 1
  contactTermsRegion := CONTACT_BOUND
  couplingIntegrand := contactCouplingTerm
  pressureIntegrand := contactPressureTerm (gamma0Of p)
  vonMisesCalls :=
    [ ("u1", "clambdastar", "cmu", mfvm1 p),
      ("u2", "clambdastar", "cmu", mfvm2 p) ]

/-- Value attached to a data name in a model configuration. -/
def lookupData (m : ModelDesc) (s : String) : Option (List ℚ) :=
  (m.data.find? (fun d => d.name == s)).map DataDecl.value

/-- Modelled from the spec: `add_filtered_fem_variable` — the multiplier
variable keeps, of all the DOFs of its finite element method, exactly those
belonging to the given region. -/
def add_filtered_fem_variable (alldofs : List Nat) (onRegion : Nat → Bool) :
    List Nat :=
  alldofs.filter onRegion

/-! ### Claim theorems C7, C8, C9 -/

/-- Claim C7: for every parameter choice, the coefficients are derived from
`E` and `nu` by `clambda = E*nu/((1+nu)*(1-2*nu))` and `cmu = E/(2*(1+nu))`,
and both elasticity bricks as well as the Von Mises post-processing use the
plane-stress corrected coefficient `clambdastar = 2*clambda*cmu/(clambda +
2*cmu)` in place of `clambda` (no data named "clambda" even exists in the
model); at the script values these functions agree with the script constants
`clambda`, `cmu`, `clambdastar`. -/
theorem elasticity_uses_plane_stress_coefficient (p : ScriptParams) :
    clambdaOf p = p.E * p.nu / ((1 + p.nu) * (1 - 2 * p.nu)) ∧
    cmuOf p = p.E / (2 * (1 + p.nu)) ∧
    (buildModel p).elasticityBricks =
      [ ⟨1, "u1", "clambdastar", "cmu"⟩, ⟨2, "u2", "clambdastar", "cmu"⟩ ] ∧
    lookupData (buildModel p) "clambdastar" =
      some [2 * clambdaOf p * cmuOf p / (clambdaOf p + 2 * cmuOf p)] ∧
    lookupData (buildModel p) "cmu" = some [cmuOf p] ∧
    lookupData (buildModel p) "clambda" = none ∧
    (buildModel p).vonMisesCalls =
      [ ("u1", "clambdastar", "cmu", mfvm1 p),
        ("u2", "clambdastar", "cmu", mfvm2 p) ] ∧
    clambdaOf scriptParams = clambda ∧
    cmuOf scriptParams = cmu ∧
    clambdastarOf scriptParams = clambdastar := by
  refine ⟨rfl, rfl, rfl, rfl, rfl, rfl, rfl, rfl, rfl, rfl⟩

/-- Claim C8: the contact multiplier `lambda1` is declared as a filtered FEM
variable on `mflambda_C` restricted to the contact region of the slave mesh
(mesh1, the wheel), the multiplier basis has degree `elements_degree - 1`
while the displacement basis has degree `elements_degree`, and (filtered
variable semantics modelled from the spec) every DOF of a filtered variable
satisfies the region membership test — no DOF exists elsewhere. -/
theorem multiplier_field_filtered_and_degree (p : ScriptParams) :
    VarDecl.filteredFemVariable "lambda1" (mflambda_C p) CONTACT_BOUND ∈
      (buildModel p).varDecls ∧
    (mflambda_C p).meshId = 1 ∧
    (mflambda_C p).qdim = 1 ∧
    (mflambda_C p).degree = p.elements_degree - 1 ∧
    (mfu1 p).degree = p.elements_degree ∧
    (∀ (alldofs : List Nat) (onRegion : Nat → Bool) (d : Nat),
      d ∈ add_filtered_fem_variable alldofs onRegion → onRegion d = true) := by
  refine ⟨?_, rfl, rfl, rfl, rfl, ?_⟩
  · simp [buildModel]
  · intro alldofs onRegion d hd
    exact (List.mem_filter.mp hd).2

/-- Witness for C8: on the concrete DOF list `[1, 3, 4]` with the region test
`d % 2 == 1`, the DOF `3` survives the filtering and indeed satisfies the
region test. -/
theorem multiplier_field_filtered_and_degree_witness :
    (3 ∈ add_filtered_fem_variable [1, 3, 4] (fun d => d % 2 == 1)) ∧
      ((fun d => d % 2 == 1) 3 = true) := by
  refine ⟨by decide, ?_⟩
  exact (multiplier_field_filtered_and_degree scriptParams).2.2.2.2.2
    [1, 3, 4] (fun d => d % 2 == 1) 3 (by decide)

/-- Claim C9: the `applied_force` parameter does not influence the assembled
model: two parameter choices differing only in `applied_force` build exactly
the same model configuration (variables, data, bricks, transformation,
contact integrands and post-processing), hence the same residual, tangent,
and solution fields. -/
theorem applied_force_has_no_influence (p : ScriptParams) (f g : ℚ) :
    buildModel { p with applied_force := f } =
      buildModel { p with applied_force := g } := rfl

/-! ### The Newton solve (hertz.py line 276)

`md.solve("max_res", 1e-9, "max_iter", 100, "noisy")` delegates to the
library's Newton loop, whose code is not part of this repository; the
specification describes its contract. -/

/-- Outcome of a solve call: convergence with the final iterate, or a
distinct non-convergence outcome carrying the last iterate. -/
inductive SolveOutcome (α : Type) where
  | converged (u : α)
  | nonConverged (u : α)
deriving DecidableEq

/-- Modelled from the spec: the Newton loop of section 4.4 — while the fuel
lasts, stop as soon as the residual norm is below the tolerance, otherwise
perform a Newton update; when the iteration budget is exhausted report
non-convergence. -/
def newtonSolve {α : Type} (step : α → α) (resNorm : α → ℚ) (tol : ℚ) :
    Nat → α → SolveOutcome α
  | 0, u => .nonConverged u
  | n + 1, u =>
    if resNorm u < tol then .converged u
    else newtonSolve step resNorm tol n (step u)

/-- The solve call of line 276: tolerance `1e-9`, at most 100 iterations. -/
def md_solve {α : Type} (step : α → α) (resNorm : α → ℚ) (u0 : α) :
    SolveOutcome α :=
  newtonSolve step resNorm (1 / 1000000000) 100 u0

/-- If the Newton loop reports convergence, the final residual really is
below the tolerance. -/
theorem newtonSolve_converged_residual {α : Type} (step : α → α)
    (resNorm : α → ℚ) (tol : ℚ) :
    ∀ (n : Nat) (u v : α),
      newtonSolve step resNorm tol n u = .converged v → resNorm v < tol := by
  intro n
  induction n with
  | zero => intro u v h; simp [newtonSolve] at h
  | succ n ih =>
    intro u v h
    by_cases hres : resNorm u < tol
    · simp only [newtonSolve, if_pos hres, SolveOutcome.converged.injEq] at h
      exact h ▸ hres
    · simp only [newtonSolve, if_neg hres] at h
      exact ih (step u) v h

/-- If no iterate within the budget meets the tolerance, the Newton loop
reports non-convergence at the last iterate. -/
theorem newtonSolve_exhausted {α : Type} (step : α → α) (resNorm : α → ℚ)
    (tol : ℚ) :
    ∀ (n : Nat) (u : α),
      (∀ k, k < n → ¬ resNorm (step^[k] u) < tol) →
      newtonSolve step resNorm tol n u = .nonConverged (step^[n] u) := by
  intro n
  induction n with
  | zero => intro u _; simp [newtonSolve]
  | succ n ih =>
    intro u hall
    have h0 : ¬ resNorm u < tol := by
      have := hall 0 (Nat.succ_pos n)
      simpa using this
    rw [newtonSolve, if_neg h0]
    have hrest : ∀ k, k < n → ¬ resNorm (step^[k] (step u)) < tol := by
      intro k hk
      have := hall (k + 1) (Nat.succ_lt_succ hk)
      rwa [Function.iterate_succ_apply] at this
    rw [ih (step u) hrest, Function.iterate_succ_apply]

/-- Claim C4: the solve of line 276 iterates until the residual norm is below
the tolerance `1e-9` or the maximum of 100 iterations is reached; a reported
convergence really has residual below the tolerance, and when every iterate
within the budget fails the tolerance the call returns the non-convergence
outcome, which is distinct from any convergence outcome (no silent partial
result). -/
theorem md_solve_outcome {α : Type} (step : α → α) (resNorm : α → ℚ)
    (u v : α) :
    (md_solve step resNorm u = .converged v → resNorm v < 1 / 1000000000) ∧
    ((∀ k, k < 100 → ¬ resNorm (step^[k] u) < 1 / 1000000000) →
      md_solve step resNorm u = .nonConverged (step^[100] u)) ∧
    SolveOutcome.nonConverged (step^[100] u) ≠ SolveOutcome.converged v := by
  refine ⟨?_, ?_, ?_⟩
  · intro h
    exact newtonSolve_converged_residual step resNorm _ 100 u v h
  · intro hall
    exact newtonSolve_exhausted step resNorm _ 100 u hall
  · intro h
    exact SolveOutcome.noConfusion h

/-- Witness for C4: with a residual that is identically 0 the solve converges
at once and the residual bound holds; with a residual that is identically 1
no iterate ever meets the tolerance and the solve returns the distinct
non-convergence outcome. -/
theorem md_solve_outcome_witness :
    (md_solve (fun x : ℚ => x) (fun _ => 0) 0 = SolveOutcome.converged 0 ∧
      (0 : ℚ) < 1 / 1000000000) ∧
    ((∀ k, k < 100 → ¬ ((1 : ℚ) < 1 / 1000000000)) ∧
      md_solve (fun x : ℚ => x) (fun _ => (1 : ℚ)) 0 =
        SolveOutcome.nonConverged ((fun x : ℚ => x)^[100] 0)) := by
  have htol : (0 : ℚ) < 1 / 1000000000 := by norm_num
  have hconv : md_solve (fun x : ℚ => x) (fun _ => 0) 0 =
      SolveOutcome.converged 0 := by
    show newtonSolve _ _ _ (99 + 1) 0 = _
    rw [newtonSolve, if_pos htol]
  have hall : ∀ k, k < 100 → ¬ ((1 : ℚ) < 1 / 1000000000) := by
    intro k _
    norm_num
  exact ⟨⟨hconv, (md_solve_outcome (fun x : ℚ => x) (fun _ => 0) 0 0).1 hconv⟩,
    hall, (md_solve_outcome (fun x : ℚ => x) (fun _ => 1) 0 0).2.1 hall⟩

/-! ### Mesh splitting (hertz.py lines 50-73)

The imported mesh is translated by `(0, 5)`; the point index sets `pid1`
(points with `y >= 0`) and `pid2` (points with `y <= 0`) are formed, the
convex id sets `cvid1`/`cvid2` are obtained with `cvid_from_pid` (the
convexes whose vertices all lie in the given point set), and the two
submeshes are clones with `del_convex` applied. -/

/-- A mesh as the script manipulates it: a list of point coordinates and a
list of convexes, each convex a list of point indices. -/
structure GMesh where
  pts : List (ℚ × ℚ)
  cvs : List (List Nat)
deriving DecidableEq

/-- `mesh.translate(v)` (line 51). -/
def translateMesh (m : GMesh) (v : ℚ × ℚ) : GMesh :=
  { pts := m.pts.map (fun P => (P.1 + v.1, P.2 + v.2)), cvs := m.cvs }

/-- `np.compress(cond, range(mesh.nbpts()))` (lines 55-56 and 60-61): the
point indices whose coordinates satisfy the condition. -/
def pidWhere (m : GMesh) (cond : ℚ × ℚ → Bool) : List Nat :=
  (List.range m.pts.length).filter
    (fun i => ((m.pts[i]?).map cond).getD false)

/-- `mesh.cvid_from_pid(pids)` (lines 57 and 62): the ids of the convexes
whose vertices are all in `pids`. -/
def cvid_from_pid (m : GMesh) (pids : List Nat) : List Nat :=
  (m.cvs.enum.filter (fun ic => ic.2.all (fun v => pids.contains v))).map
    Prod.fst

/-- `mesh.del_convex(cvids)` (lines 68 and 72): remove the convexes with the
given ids. -/
def del_convex (m : GMesh) (cvids : List Nat) : GMesh :=
  { pts := m.pts
    cvs := (m.cvs.enum.filter (fun ic => !(cvids.contains ic.1))).map
      Prod.snd }

/-- The translated mesh of line 51: the imported mesh moved up by `(0, 5)`. -/
def hertzMesh (m0 : GMesh) : GMesh := translateMesh m0 (0, 5)

/-- `pid1`: indices of points with `y >= 0` (lines 55-56). -/
def pid1 (m : GMesh) : List Nat := pidWhere m (fun P => decide (0 ≤ P.2))

/-- `pid2`: indices of points with `y <= 0` (lines 60-61). -/
def pid2 (m : GMesh) : List Nat := pidWhere m (fun P => decide (P.2 ≤ 0))

/-- `cvid1 = mesh.cvid_from_pid(pid1)` (line 57). -/
def cvid1 (m : GMesh) : List Nat := cvid_from_pid m (pid1 m)

/-- `cvid2 = mesh.cvid_from_pid(pid2)` (line 62). -/
def cvid2 (m : GMesh) : List Nat := cvid_from_pid m (pid2 m)

/-- `mesh1`: clone of the translated mesh with the convexes `cvid2`
deleted (lines 67-68). -/
def mesh1 (m0 : GMesh) : GMesh :=
  del_convex (hertzMesh m0) (cvid2 (hertzMesh m0))

/-- `mesh2`: clone of the translated mesh with the convexes `cvid1`
deleted (lines 71-72). -/
def mesh2 (m0 : GMesh) : GMesh :=
  del_convex (hertzMesh m0) (cvid1 (hertzMesh m0))

/-- The per-vertex test behind `pid1`/`pid2` membership: the vertex id is a
valid point index and its coordinates satisfy `cond`. -/
def vertSat (m : GMesh) (cond : ℚ × ℚ → Bool) (v : Nat) : Bool :=
  ((m.pts[v]?).map cond).getD false

/-- Membership in a `pidWhere` point set is the per-vertex test. -/
theorem mem_pidWhere (m : GMesh) (cond : ℚ × ℚ → Bool) (v : Nat) :
    v ∈ pidWhere m cond ↔ vertSat m cond v = true := by
  rw [pidWhere, List.mem_filter, List.mem_range]
  constructor
  · exact fun h => h.2
  · intro h
    refine ⟨?_, h⟩
    rw [vertSat] at h
    cases hp : m.pts[v]? with
    | none => rw [hp] at h; simp at h
    | some P =>
      rcases List.getElem?_eq_some.mp hp with ⟨hl, _⟩
      exact hl

/-- Membership in `cvid_from_pid`: there is a convex with that id whose
vertices are all in the point set. -/
theorem mem_cvid_from_pid (m : GMesh) (pids : List Nat) (j : Nat) :
    j ∈ cvid_from_pid m pids ↔
      ∃ c, m.cvs[j]? = some c ∧
        c.all (fun v => pids.contains v) = true := by
  rw [cvid_from_pid]
  constructor
  · intro h
    rcases List.mem_map.mp h with ⟨⟨i, c⟩, hic, rfl⟩
    rcases List.mem_filter.mp hic with ⟨henum, hall⟩
    exact ⟨c, List.mk_mem_enum_iff_getElem?.mp henum, hall⟩
  · rintro ⟨c, hc, hall⟩
    exact List.mem_map.mpr ⟨(j, c),
      List.mem_filter.mpr ⟨List.mk_mem_enum_iff_getElem?.mpr hc, hall⟩, rfl⟩

/-- Membership in the convex list after `del_convex`: the convex occurs in
the original list at an id that is not deleted. -/
theorem mem_del_convex (m : GMesh) (cvids : List Nat) (c : List Nat) :
    c ∈ (del_convex m cvids).cvs ↔
      ∃ j : Nat, m.cvs[j]? = some c ∧ cvids.contains j = false := by
  rw [del_convex]
  constructor
  · intro h
    rcases List.mem_map.mp h with ⟨⟨j, c2⟩, hic, rfl⟩
    rcases List.mem_filter.mp hic with ⟨henum, hnot⟩
    refine ⟨j, List.mk_mem_enum_iff_getElem?.mp henum, ?_⟩
    simpa using hnot
  · rintro ⟨j, hj, hnot⟩
    exact List.mem_map.mpr ⟨(j, c),
      List.mem_filter.mpr ⟨List.mk_mem_enum_iff_getElem?.mpr hj,
        by simpa using hnot⟩, rfl⟩

/-- Deleting `cvid_from_pid m pids` keeps exactly the convexes of `m` that
have at least one vertex outside `pids`. -/
theorem mem_del_cvid (m : GMesh) (pids : List Nat) (c : List Nat) :
    c ∈ (del_convex m (cvid_from_pid m pids)).cvs ↔
      c ∈ m.cvs ∧ ¬ (∀ v ∈ c, v ∈ pids) := by
  rw [mem_del_convex]
  constructor
  · rintro ⟨j, hj, hnot⟩
    refine ⟨List.mem_iff_getElem?.mpr ⟨j, hj⟩, fun hall => ?_⟩
    have hmem : j ∈ cvid_from_pid m pids :=
      (mem_cvid_from_pid m pids j).mpr
        ⟨c, hj, List.all_eq_true.mpr (fun v hv => by simpa using hall v hv)⟩
    have hcon : (cvid_from_pid m pids).contains j = true := by
      simpa using hmem
    rw [hnot] at hcon
    exact Bool.noConfusion hcon
  · rintro ⟨hc, hnall⟩
    rcases List.mem_iff_getElem?.mp hc with ⟨j, hj⟩
    refine ⟨j, hj, ?_⟩
    rcases Bool.eq_false_or_eq_true ((cvid_from_pid m pids).contains j) with
      hb | hb
    · exfalso
      have hmem : j ∈ cvid_from_pid m pids := by simpa using hb
      rcases (mem_cvid_from_pid m pids j).mp hmem with ⟨c2, hj2, hall2⟩
      rw [hj] at hj2
      injection hj2 with hcc
      subst hcc
      exact hnall (fun v hv => by
        simpa using List.all_eq_true.mp hall2 v hv)
    · exact hb

/-- Claim C10: after the `(0, 5)` translation, `mesh1` keeps exactly the
convexes having a vertex that fails `y ≤ 0` (i.e. deletes exactly those all
of whose vertices have `y ≤ 0`), `mesh2` symmetrically deletes exactly those
all of whose vertices have `y ≥ 0`; hence a convex with vertices strictly on
both sides of `y = 0` remains in both submeshes, and a convex all of whose
vertices lie exactly at `y = 0` remains in neither. -/
theorem mesh_split_by_sign_of_y (m0 : GMesh) (c : List Nat) :
    (c ∈ (mesh1 m0).cvs ↔
      c ∈ (hertzMesh m0).cvs ∧
        ¬ (∀ v ∈ c,
          vertSat (hertzMesh m0) (fun P => decide (P.2 ≤ 0)) v = true)) ∧
    (c ∈ (mesh2 m0).cvs ↔
      c ∈ (hertzMesh m0).cvs ∧
        ¬ (∀ v ∈ c,
          vertSat (hertzMesh m0) (fun P => decide (0 ≤ P.2)) v = true)) ∧
    (c ∈ (hertzMesh m0).cvs →
      (∃ v ∈ c, ∃ P, (hertzMesh m0).pts[v]? = some P ∧ 0 < P.2) →
      (∃ v ∈ c, ∃ P, (hertzMesh m0).pts[v]? = some P ∧ P.2 < 0) →
      c ∈ (mesh1 m0).cvs ∧ c ∈ (mesh2 m0).cvs) ∧
    (c ∈ (hertzMesh m0).cvs →
      (∀ v ∈ c, ∃ P, (hertzMesh m0).pts[v]? = some P ∧ P.2 = 0) →
      c ∉ (mesh1 m0).cvs ∧ c ∉ (mesh2 m0).cvs) := by
  have hiffLE : (∀ v ∈ c, v ∈ pid2 (hertzMesh m0)) ↔
      (∀ v ∈ c,
        vertSat (hertzMesh m0) (fun P => decide (P.2 ≤ 0)) v = true) := by
    constructor <;> intro h v hv
    · exact (mem_pidWhere _ _ v).mp (h v hv)
    · exact (mem_pidWhere _ _ v).mpr (h v hv)
  have hiffGE : (∀ v ∈ c, v ∈ pid1 (hertzMesh m0)) ↔
      (∀ v ∈ c,
        vertSat (hertzMesh m0) (fun P => decide (0 ≤ P.2)) v = true) := by
    constructor <;> intro h v hv
    · exact (mem_pidWhere _ _ v).mp (h v hv)
    · exact (mem_pidWhere _ _ v).mpr (h v hv)
  have h1 : c ∈ (mesh1 m0).cvs ↔
      c ∈ (hertzMesh m0).cvs ∧
        ¬ (∀ v ∈ c,
          vertSat (hertzMesh m0) (fun P => decide (P.2 ≤ 0)) v = true) := by
    refine (mem_del_cvid (hertzMesh m0) (pid2 (hertzMesh m0)) c).trans ?_
    rw [hiffLE]
  have h2 : c ∈ (mesh2 m0).cvs ↔
      c ∈ (hertzMesh m0).cvs ∧
        ¬ (∀ v ∈ c,
          vertSat (hertzMesh m0) (fun P => decide (0 ≤ P.2)) v = true) := by
    refine (mem_del_cvid (hertzMesh m0) (pid1 (hertzMesh m0)) c).trans ?_
    rw [hiffGE]
  refine ⟨h1, h2, ?_, ?_⟩
  · rintro hc ⟨va, hva, Pa, hPa, hya⟩ ⟨vb, hvb, Pb, hPb, hyb⟩
    constructor
    · refine h1.mpr ⟨hc, fun hall => ?_⟩
      have := hall va hva
      rw [vertSat, hPa] at this
      simp at this
      linarith
    · refine h2.mpr ⟨hc, fun hall => ?_⟩
      have := hall vb hvb
      rw [vertSat, hPb] at this
      simp at this
      linarith
  · intro hc hzero
    constructor
    · intro hmem
      refine (h1.mp hmem).2 (fun v hv => ?_)
      rcases hzero v hv with ⟨P, hP, hy⟩
      rw [vertSat, hP]
      simp [hy]
    · intro hmem
      refine (h2.mp hmem).2 (fun v hv => ?_)
      rcases hzero v hv with ⟨P, hP, hy⟩
      rw [vertSat, hP]
      simp [hy]

/-- A concrete five-point, two-convex mesh used to witness C10.  After the
`(0, 5)` translation its points are `(0,-1), (0,1), (1,0), (0,0), (2,0)`:
the convex `[0,1,2]` has vertices strictly on both sides of `y = 0`, the
convex `[3,4]` has all vertices exactly at `y = 0`. -/
def wheelTestMesh : GMesh :=
  { pts := [(0, -6), (0, -4), (1, -5), (0, -5), (2, -5)],
    cvs := [[0, 1, 2], [3, 4]] }

/-- Witness for C10 on `wheelTestMesh`: the straddling convex `[0,1,2]`
remains in both submeshes and the all-zero convex `[3,4]` remains in
neither. -/
theorem mesh_split_by_sign_of_y_witness :
    ([0, 1, 2] ∈ (mesh1 wheelTestMesh).cvs ∧
      [0, 1, 2] ∈ (mesh2 wheelTestMesh).cvs) ∧
    ([3, 4] ∉ (mesh1 wheelTestMesh).cvs ∧
      [3, 4] ∉ (mesh2 wheelTestMesh).cvs) := by
  have hmem1 : [0, 1, 2] ∈ (hertzMesh wheelTestMesh).cvs := by
    simp [hertzMesh, translateMesh, wheelTestMesh]
  have hmem2 : [3, 4] ∈ (hertzMesh wheelTestMesh).cvs := by
    simp [hertzMesh, translateMesh, wheelTestMesh]
  have hup : ∃ v ∈ ([0, 1, 2] : List Nat), ∃ P : ℚ × ℚ,
      (hertzMesh wheelTestMesh).pts[v]? = some P ∧ 0 < P.2 := by
    refine ⟨1, by norm_num, ((0 : ℚ), (1 : ℚ)), ?_, by norm_num⟩
    norm_num [hertzMesh, translateMesh, wheelTestMesh]
  have hdown : ∃ v ∈ ([0, 1, 2] : List Nat), ∃ P : ℚ × ℚ,
      (hertzMesh wheelTestMesh).pts[v]? = some P ∧ P.2 < 0 := by
    refine ⟨0, by norm_num, ((0 : ℚ), (-1 : ℚ)), ?_, by norm_num⟩
    norm_num [hertzMesh, translateMesh, wheelTestMesh]
  have hzero : ∀ v ∈ ([3, 4] : List Nat), ∃ P : ℚ × ℚ,
      (hertzMesh wheelTestMesh).pts[v]? = some P ∧ P.2 = 0 := by
    intro v hv
    rcases List.mem_cons.mp hv with rfl | hv2
    · exact ⟨((0 : ℚ), (0 : ℚ)),
        by norm_num [hertzMesh, translateMesh, wheelTestMesh], rfl⟩
    rcases List.mem_cons.mp hv2 with rfl | hv3
    · exact ⟨((2 : ℚ), (0 : ℚ)),
        by norm_num [hertzMesh, translateMesh, wheelTestMesh], rfl⟩
    · exact absurd hv3 (List.not_mem_nil v)
  exact ⟨(mesh_split_by_sign_of_y wheelTestMesh [0, 1, 2]).2.2.1
      hmem1 hup hdown,
    (mesh_split_by_sign_of_y wheelTestMesh [3, 4]).2.2.2 hmem2 hzero⟩

end Hertz
